import Mathlib

/-!
Shallow embedding of the dashboard scaffold's authentication, local-storage,
HTTP-wrapper and utility code (src/util/request.ts, src/util/index.ts,
src/util/config.ts, src/pages/auth/Login.tsx, src/pages/auth/Register.tsx,
src/pages/Dashboard.tsx), together with theorems settling the stated
properties of that code.
-/

/-! ## Browser local storage (window.localStorage) -/

/-- Browser local storage, modelled as a map from string keys to optional
string values (`none` means the key is absent, as `getItem` returns `null`). -/
def Store : Type := String → Option String

/-- localStorage.getItem. -/
def getItem (st : Store) (k : String) : Option String := st k

/-- localStorage.setItem. -/
def setItem (st : Store) (k v : String) : Store :=
  fun q => if q = k then some v else st q

/-- localStorage.removeItem. -/
def removeItem (st : Store) (k : String) : Store :=
  fun q => if q = k then none else st q

/-- An empty local storage. -/
def emptyStore : Store := fun _ => none

/-- JavaScript truthiness of a `string | null` value: `null`, `undefined` and
the empty string are falsy, every other string is truthy. -/
def jsTruthy : Option String → Bool
  | none => false
  | some s => s ≠ ""

/-- JavaScript `x || d` on an optional string `x` with string default `d`:
returns `d` when `x` is absent or empty (falsy), else the string itself. -/
def jsOr (x : Option String) (d : String) : String :=
  match x with
  | none => d
  | some s => if s = "" then d else s

/-! ## Configuration constants (src/util/config.ts) -/

namespace STORAGE_KEYS

def TOKEN : String := "company_token"

def USER : String := "company_user"

def REFRESH_TOKEN : String := "company_refresh_token"

end STORAGE_KEYS

namespace ERROR_MESSAGES

def NETWORK_ERROR : String := "Network error. Please check your connection."

def UNAUTHORIZED : String := "You are not authorized. Please login again."

def FORBIDDEN : String := "You don't have permission to access this resource."

def NOT_FOUND : String := "The requested resource was not found."

def VALIDATION_ERROR : String := "Please check your input and try again."

def SERVER_ERROR : String := "Something went wrong on our end. Please try again later."

def TIMEOUT : String := "Request timeout. Please try again."

def UNKNOWN : String := "An unknown error occurred."

end ERROR_MESSAGES

namespace HTTP_STATUS

def UNAUTHORIZED : Nat := 401

def FORBIDDEN : Nat := 403

def NOT_FOUND : Nat := 404

def UNPROCESSABLE_ENTITY : Nat := 422

end HTTP_STATUS

/-! ## Authentication utilities (src/util/index.ts) -/

/-- isAuthenticated (src/util/index.ts): `!!localStorage.getItem(STORAGE_KEYS.TOKEN)`. -/
def isAuthenticated (st : Store) : Bool :=
  jsTruthy (getItem st STORAGE_KEYS.TOKEN)

/-! ## Mock auth APIs (src/pages/auth/Login.tsx, Register.tsx) -/

/-- Result of a mock auth call: `{ ok: true, token, name }` or `{ ok: false, error }`. -/
inductive AuthResult where
  | ok (token name : String)
  | err (error : String)
deriving DecidableEq, Repr

/-- loginApi (src/pages/auth/Login.tsx): waits 500 ms, then returns the canned
success for the demo credentials and the canned failure otherwise. The first
component is the simulated delay in milliseconds. -/
def loginApi (email password : String) : Nat × AuthResult :=
  (500,
    if email = "user@company.com" ∧ password = "password" then
      .ok "demo-token-123" "Demo User"
    else
      .err "Invalid email or password")

/-- registerApi (src/pages/auth/Register.tsx): waits 500 ms, then succeeds when
the email contains "@" (a one-character `includes`, modelled as membership in
the character list) and the password has at least 4 characters. -/
def registerApi (name email password : String) : Nat × AuthResult :=
  (500,
    if email.toList.contains '@' ∧ 4 ≤ password.length then
      .ok "demo-token-456" name
    else
      .err "Invalid registration details")

/-- Model of `JSON.stringify({ name, email })` for two plain string fields that
contain no characters needing JSON escaping; the pages serialize the user
record this way before storing it. -/
def stringifyUser (name email : String) : String :=
  "\x7b\"name\":\"" ++ name ++ "\",\"email\":\"" ++ email ++ "\"\x7d"

/-! ## The HTTP request wrapper (src/util/request.ts) -/

/-- A raw JavaScript error value (anything thrown that is not an ApiError),
carrying the `name` and `message` properties the wrapper inspects. -/
structure JsError where
  name : String
  message : String
deriving DecidableEq, Repr

/-- The parts of a parsed response body that the wrapper reads: the optional
`message` field, the optional `errors` field (field name to list of messages),
and the optional `data` field (the payload, abstracted to a string). -/
structure RespData where
  message : Option String
  errors : Option (List (String × List String))
  dataField : Option String
deriving DecidableEq, Repr

/-- The `data` argument handed to the ApiError constructor: either a parsed
response body or, in the generic catch branch, the raw error object itself. -/
inductive ErrData where
  | resp (d : RespData)
  | jsErr (e : JsError)
deriving DecidableEq, Repr

/-- The `errors` property read off the `data` argument (`data?.errors`);
a raw error object has no such property. -/
def ErrData.errorsField : ErrData → Option (List (String × List String))
  | .resp d => d.errors
  | .jsErr _ => none

/-- The ApiError class: message, numeric status, the data it was built from,
and `errors := data?.errors` as set by the constructor. -/
structure ApiError where
  message : String
  status : Nat
  data : Option ErrData
  errors : Option (List (String × List String))
deriving DecidableEq, Repr

/-- The ApiError constructor `new ApiError(message, status, data)`. -/
def mkApiError (message : String) (status : Nat) (data : Option ErrData) : ApiError :=
  { message := message, status := status, data := data
    errors := data.bind ErrData.errorsField }

/-- Anything the wrapper's body can throw: an ApiError it built itself, or a
raw JavaScript error (network failure, body-parsing failure, ...). -/
inductive RawError where
  | api (e : ApiError)
  | js (e : JsError)
deriving DecidableEq, Repr

/-- The successful return value of `request`. -/
structure ApiResponse where
  data : RespData
  message : Option String
  success : Bool
  status : Nat
  errors : Option (List (String × List String))
deriving DecidableEq, Repr

/-- What the fetch + body-parsing phase of one call does: the response arrives
with a status and a body-parsing outcome (parsing can itself throw a raw
error), or the timeout fires and aborts, or fetch rejects with a raw error. -/
inductive FetchOutcome where
  | success (status : Nat) (parsed : Except JsError RespData)
  | abortError
  | jsError (e : JsError)

/-- The browser state the wrapper touches: local storage and
`window.location.href`. -/
structure BrowserState where
  store : Store
  location : String

/-- clearAuthData (src/util/request.ts): removes the token, user and refresh
token keys from local storage. -/
def clearAuthData (st : Store) : Store :=
  removeItem (removeItem (removeItem st STORAGE_KEYS.TOKEN) STORAGE_KEYS.USER)
    STORAGE_KEYS.REFRESH_TOKEN

/-- redirectToLogin (src/util/request.ts): clears auth data, then sets
`window.location.href = "/login"`. -/
def redirectToLogin (b : BrowserState) : BrowserState :=
  { store := clearAuthData b.store, location := "/login" }

/-- getAuthToken (src/util/request.ts): reads the stored token. -/
def getAuthToken (st : Store) : Option String :=
  getItem st STORAGE_KEYS.TOKEN

/-- The authentication part of buildHeaders (src/util/request.ts): when auth is
required and no (truthy) token is stored, it throws an ApiError with status 401
before any network activity. -/
def buildHeadersAuthCheck (requiresAuth : Bool) (st : Store) : Except ApiError Unit :=
  if requiresAuth then
    if jsTruthy (getAuthToken st) then .ok ()
    else .error (mkApiError ERROR_MESSAGES.UNAUTHORIZED HTTP_STATUS.UNAUTHORIZED none)
  else .ok ()

/-- fetchWithTimeout (src/util/request.ts), as seen from its caller: an abort
becomes an ApiError with status 408, any other fetch rejection is rethrown
raw; a response that arrives is handed on together with its parse outcome. -/
def fetchWithTimeout (o : FetchOutcome) :
    Except RawError (Nat × Except JsError RespData) :=
  match o with
  | .abortError => .error (.api (mkApiError ERROR_MESSAGES.TIMEOUT 408 none))
  | .jsError e => .error (.js e)
  | .success status parsed => .ok (status, parsed)

/-- `response.ok` of the Fetch API: status in the range 200-299. -/
def responseOk (status : Nat) : Bool :=
  200 ≤ status && status < 300

/-- The body of `request`'s try block (src/util/request.ts lines 187-243):
fetch, parse, then the status dispatch. Returns the possibly-updated browser
state (the 401 branch redirects) and either an ApiResponse or whatever was
thrown. -/
def requestTryBody (b : BrowserState) (o : FetchOutcome) :
    BrowserState × Except RawError ApiResponse :=
  match fetchWithTimeout o with
  | .error e => (b, .error e)
  | .ok (_, .error parseErr) => (b, .error (.js parseErr))
  | .ok (status, .ok data) =>
    if status = HTTP_STATUS.UNAUTHORIZED then
      (redirectToLogin b,
        .error (.api (mkApiError ERROR_MESSAGES.UNAUTHORIZED HTTP_STATUS.UNAUTHORIZED
          (some (.resp data)))))
    else if status = HTTP_STATUS.FORBIDDEN then
      (b, .error (.api (mkApiError ERROR_MESSAGES.FORBIDDEN HTTP_STATUS.FORBIDDEN
        (some (.resp data)))))
    else if status = HTTP_STATUS.NOT_FOUND then
      (b, .error (.api (mkApiError ERROR_MESSAGES.NOT_FOUND HTTP_STATUS.NOT_FOUND
        (some (.resp data)))))
    else if status = HTTP_STATUS.UNPROCESSABLE_ENTITY then
      (b, .error (.api (mkApiError (jsOr data.message ERROR_MESSAGES.VALIDATION_ERROR)
        HTTP_STATUS.UNPROCESSABLE_ENTITY (some (.resp data)))))
    else if 500 ≤ status then
      (b, .error (.api (mkApiError ERROR_MESSAGES.SERVER_ERROR status (some (.resp data)))))
    else if ¬ responseOk status then
      (b, .error (.api (mkApiError (jsOr data.message ("HTTP " ++ toString status))
        status (some (.resp data)))))
    else
      (b, .ok { data := data, message := data.message, success := true
                status := status, errors := data.errors })

/-- `request`'s catch block (src/util/request.ts lines 244-261): an ApiError is
rethrown, a "Failed to fetch" rejection becomes a network ApiError with status
0, anything else becomes a generic ApiError with status 0. -/
def catchHandler : RawError → ApiError
  | .api a => a
  | .js e =>
    if e.message = "Failed to fetch" then
      mkApiError ERROR_MESSAGES.NETWORK_ERROR 0 (some (.jsErr e))
    else
      mkApiError (jsOr (some e.message) ERROR_MESSAGES.UNKNOWN) 0 (some (.jsErr e))

/-- The main request function (src/util/request.ts): builds headers (which can
itself throw an ApiError, outside the try block), runs the try body, and wraps
every raw rejection of the body into an ApiError via the catch block. The
error channel is `RawError` so that "only ApiErrors escape" is a statement,
not a typing artifact. -/
def request (b : BrowserState) (requiresAuth : Bool) (o : FetchOutcome) :
    BrowserState × Except RawError ApiResponse :=
  match buildHeadersAuthCheck requiresAuth b.store with
  | .error e => (b, .error (.api e))
  | .ok _ =>
    match requestTryBody b o with
    | (b', .ok resp) => (b', .ok resp)
    | (b', .error raw) => (b', .error (.api (catchHandler raw)))

/-- The status of a rejected request, when it rejected with an ApiError. -/
def resultStatus : Except RawError ApiResponse → Option Nat
  | .error (.api a) => some a.status
  | _ => none

/-! ## Page handlers (Login.tsx, Register.tsx, Dashboard.tsx) -/

/-- The page-level state the handlers touch: local storage, the router route
reached through `navigate`, and the page's error message state. -/
structure PageState where
  store : Store
  route : String
  errorMsg : String

namespace Login

/-- handleSubmit (src/pages/auth/Login.tsx): calls loginApi; on success stores
the token under company_token and the serialized user record under
company_user, then navigates to /dashboard; on failure sets the error message.
The first component is the simulated delay. -/
def handleSubmit (s : PageState) (email password : String) : Nat × PageState :=
  let (delay, res) := loginApi email password
  match res with
  | .ok token name =>
    (delay,
      { store := setItem (setItem s.store STORAGE_KEYS.TOKEN token)
          STORAGE_KEYS.USER (stringifyUser name email)
        route := "/dashboard", errorMsg := "" })
  | .err e => (delay, { s with errorMsg := jsOr (some e) "Login failed" })

end Login

namespace Register

/-- handleSubmit (src/pages/auth/Register.tsx): calls registerApi; on success
stores the token (guarded by `if (res.token)`, a truthiness check) and the
serialized user record, then navigates to /dashboard; on failure sets the
error message. -/
def handleSubmit (s : PageState) (name email password : String) : Nat × PageState :=
  let (delay, res) := registerApi name email password
  match res with
  | .ok token _ =>
    let st1 := if token ≠ "" then setItem s.store STORAGE_KEYS.TOKEN token else s.store
    (delay,
      { store := setItem st1 STORAGE_KEYS.USER (stringifyUser name email)
        route := "/dashboard", errorMsg := "" })
  | .err e => (delay, { s with errorMsg := jsOr (some e) "Registration failed" })

end Register

namespace Dashboard

/-- handleLogout (src/pages/Dashboard.tsx): removes the company_token and
company_user keys and navigates to /login. -/
def handleLogout (s : PageState) : PageState :=
  { store := removeItem (removeItem s.store "company_token") "company_user"
    route := "/login", errorMsg := s.errorMsg }

end Dashboard

/-! ## retryRequest (src/util/request.ts) -/

/-- The observable trace of one retryRequest run: its outcome (`.error none`
models `throw lastError` when no attempt ever ran and lastError is still
undefined), how many times the request function was invoked, and the list of
backoff delays waited, in order. -/
structure RetryTrace (T : Type) where
  result : Except (Option ApiError) T
  attempts : Nat
  delays : List Nat
deriving Repr

/-- The loop of retryRequest: `fuel` is the number of loop iterations left
(`maxRetries - i`), `i` the current attempt index and `last` the current value
of `lastError`. Each iteration invokes the request function once; a 4xx
ApiError is rethrown at once; otherwise, when further iterations remain, the
loop waits `baseDelay * 2 ^ i` and continues; when none remain the loop exits
and `lastError` is thrown. -/
def retryGo {T : Type} (f : Nat → Except ApiError T) (baseDelay : Nat)
    (last : Option ApiError) (i : Nat) : Nat → RetryTrace T
  | 0 => ⟨.error last, 0, []⟩
  | fuel + 1 =>
    match f i with
    | .ok v => ⟨.ok v, 1, []⟩
    | .error e =>
      if 400 ≤ e.status ∧ e.status < 500 then ⟨.error (some e), 1, []⟩
      else if fuel = 0 then ⟨.error (some e), 1, []⟩
      else
        let rest := retryGo f baseDelay (some e) (i + 1) fuel
        ⟨rest.result, rest.attempts + 1, baseDelay * 2 ^ i :: rest.delays⟩

/-- retryRequest (src/util/request.ts): runs the request function up to
`maxRetries` times starting at attempt index 0. The request function is
modelled as a map from the attempt index to that attempt's outcome. -/
def retryRequest {T : Type} (f : Nat → Except ApiError T)
    (maxRetries baseDelay : Nat) : RetryTrace T :=
  retryGo f baseDelay none 0 maxRetries

/-! ## Array, string and object utilities (src/util/index.ts) -/

/-- The loop of chunk: starting at index `i`, pushes `array.slice(i, i + size)`
and advances `i` by `size` while `i < array.length`; `fuel` bounds the number
of iterations (for `size ≥ 1`, `array.length` iterations always suffice). -/
def chunkGo {α : Type} (array : List α) (size : Nat) : Nat → Nat → List (List α)
  | _, 0 => []
  | i, fuel + 1 =>
    if i < array.length then
      (array.drop i).take size :: chunkGo array size (i + size) fuel
    else []

/-- chunk (src/util/index.ts): splits the array into consecutive slices of
`size` elements. -/
def chunk {α : Type} (array : List α) (size : Nat) : List (List α) :=
  chunkGo array size 0 array.length

/-- truncate (src/util/index.ts), on strings as lists of characters:
`if (!text || text.length <= maxLength) return text;
 return text.slice(0, maxLength - suffix.length) + suffix;`
(the `Nat` subtraction matches `slice`'s clamping of a negative end index). -/
def truncate (text : List Char) (maxLength : Nat) (suffix : List Char) : List Char :=
  if text = [] ∨ text.length ≤ maxLength then text
  else text.take (maxLength - suffix.length) ++ suffix

/-- A JavaScript object, as an association list of own enumerable properties
in insertion order (keys are unique in a real object; none of the operations
below require that). -/
abbrev Obj (α : Type) : Type := List (String × α)

/-- Property lookup `o[k]`. -/
def lookupKey {α : Type} (o : Obj α) (k : String) : Option α :=
  (o.find? (fun p => p.1 = k)).map (·.2)

/-- `delete o[k]`: removes the property named `k`. -/
def deleteKey {α : Type} (o : Obj α) (k : String) : Obj α :=
  o.filter (fun p => p.1 ≠ k)

/-- A heap of objects, so that mutation and aliasing are observable: an object
reference is an index into the heap. -/
structure Heap (α : Type) where
  objs : List (Obj α)

/-- omit (src/util/index.ts): `const result = { ...obj }` allocates a fresh
copy of the referenced object, `keys.forEach((key) => { delete result[key] })`
mutates only that copy, and the reference to the copy is returned. -/
def «omit» {α : Type} (h : Heap α) (ref : Nat) (keys : List String) : Heap α × Nat :=
  let obj := h.objs.getD ref []
  let result := keys.foldl (fun acc k => deleteKey acc k) obj
  (⟨h.objs ++ [result]⟩, h.objs.length)

/-! ## Helper lemmas -/

theorem getItem_setItem_self (st : Store) (k v : String) :
    getItem (setItem st k v) k = some v := by
  simp [getItem, setItem]

theorem getItem_setItem_ne (st : Store) (k k' v : String) (h : k' ≠ k) :
    getItem (setItem st k v) k' = getItem st k' := by
  simp [getItem, setItem, h]

theorem getItem_removeItem_self (st : Store) (k : String) :
    getItem (removeItem st k) k = none := by
  simp [getItem, removeItem]

theorem getItem_removeItem_ne (st : Store) (k k' : String) (h : k' ≠ k) :
    getItem (removeItem st k) k' = getItem st k' := by
  simp [getItem, removeItem, h]

theorem clearAuthData_spec (st : Store) :
    getItem (clearAuthData st) STORAGE_KEYS.TOKEN = none ∧
    getItem (clearAuthData st) STORAGE_KEYS.USER = none ∧
    getItem (clearAuthData st) STORAGE_KEYS.REFRESH_TOKEN = none := by
  refine ⟨rfl, rfl, rfl⟩

/-! ## C6 -/

/-- C6 counterexample: with the company_token key set to the empty string, the
key is present in local storage yet isAuthenticated returns false, because the
implementation double-negates the stored value and the empty string is falsy. -/
theorem isAuthenticated_counterexample :
    (getItem (setItem emptyStore STORAGE_KEYS.TOKEN "") STORAGE_KEYS.TOKEN).isSome = true ∧
    isAuthenticated (setItem emptyStore STORAGE_KEYS.TOKEN "") = false := by
  decide

/-- C6 (amended): isAuthenticated returns true exactly when the company_token
key is set to a non-empty string; the token's value is otherwise not
validated. -/
theorem isAuthenticated_iff_nonempty_token (st : Store) :
    isAuthenticated st = true ↔
      ∃ v, getItem st STORAGE_KEYS.TOKEN = some v ∧ v ≠ "" := by
  unfold isAuthenticated
  cases h : getItem st STORAGE_KEYS.TOKEN with
  | none => simp [jsTruthy]
  | some s => simp [jsTruthy]

/-! ## C7 -/

/-- C7: loginApi is a fixed-delay canned responder: it always reports a 500 ms
delay, resolves to the canned success exactly for the demo credentials, and to
the canned failure message for every other input. -/
theorem loginApi_canned_responder (email password : String) :
    (loginApi email password).1 = 500 ∧
    ((loginApi email password).2 = .ok "demo-token-123" "Demo User" ↔
      email = "user@company.com" ∧ password = "password") ∧
    (¬(email = "user@company.com" ∧ password = "password") →
      (loginApi email password).2 = .err "Invalid email or password") := by
  by_cases h : email = "user@company.com" ∧ password = "password" <;>
    simp [loginApi, h]

/-! ## C9 -/

/-- C9: truncate returns the text unchanged when it fits within maxLength;
otherwise (when the suffix itself fits within maxLength) it returns a string
of length exactly maxLength that is a prefix of the text followed by the
suffix. -/
theorem truncate_spec (text : List Char) (maxLength : Nat) (suffix : List Char) :
    (text.length ≤ maxLength → truncate text maxLength suffix = text) ∧
    (maxLength < text.length → suffix.length ≤ maxLength →
      (truncate text maxLength suffix).length = maxLength ∧
      suffix <:+ truncate text maxLength suffix ∧
      ∃ p, p <+: text ∧ truncate text maxLength suffix = p ++ suffix) := by
  constructor
  · intro h
    simp [truncate, h]
  · intro h1 h2
    have hne : ¬(text = [] ∨ text.length ≤ maxLength) := by
      push_neg
      refine ⟨?_, by omega⟩
      intro he
      rw [he] at h1
      simp at h1
    rw [truncate, if_neg hne]
    refine ⟨?_, ⟨text.take (maxLength - suffix.length), rfl⟩,
      text.take (maxLength - suffix.length), List.take_prefix _ _, rfl⟩
    rw [List.length_append, List.length_take_of_le (by omega)]
    omega

/-! ## C10 -/

theorem lookupKey_deleteKey {α : Type} (o : Obj α) (k q : String) :
    lookupKey (deleteKey o k) q = if q = k then none else lookupKey o q := by
  induction o with
  | nil => simp [lookupKey, deleteKey]
  | cons p t ih =>
    obtain ⟨a, v⟩ := p
    by_cases hak : a = k <;> by_cases hqk : q = k <;> by_cases hqa : a = q <;>
      simp_all [deleteKey, List.filter_cons, lookupKey, List.find?_cons]

theorem lookupKey_foldl_deleteKey {α : Type} (keys : List String) :
    ∀ (o : Obj α) (q : String),
      lookupKey (keys.foldl (fun acc k => deleteKey acc k) o) q =
        if q ∈ keys then none else lookupKey o q := by
  induction keys with
  | nil => intro o q; simp
  | cons k ks ih =>
    intro o q
    simp only [List.foldl_cons]
    rw [ih (deleteKey o k) q, lookupKey_deleteKey]
    by_cases h1 : q ∈ ks <;> by_cases h2 : q = k <;> simp [h1, h2]

/-- C10: omit returns a fresh object in which every listed key is absent,
every other key keeps exactly the value it has in the input object, and the
input object itself is unmodified (the spread copies it before the deletes). -/
theorem omit_spec {α : Type} (h : Heap α) (ref : Nat) (keys : List String)
    (href : ref < h.objs.length) :
    (∀ k ∈ keys,
      lookupKey ((«omit» h ref keys).1.objs.getD («omit» h ref keys).2 []) k = none) ∧
    (∀ k, k ∉ keys →
      lookupKey ((«omit» h ref keys).1.objs.getD («omit» h ref keys).2 []) k =
        lookupKey (h.objs.getD ref []) k) ∧
    («omit» h ref keys).1.objs.getD ref [] = h.objs.getD ref [] := by
  have hres : («omit» h ref keys).1.objs.getD («omit» h ref keys).2 [] =
      keys.foldl (fun acc k => deleteKey acc k) (h.objs.getD ref []) := by
    show (h.objs ++ [keys.foldl (fun acc k => deleteKey acc k) (h.objs.getD ref [])]).getD
      h.objs.length [] = _
    rw [List.getD_eq_getElem?_getD, List.getElem?_concat_length]
    rfl
  refine ⟨?_, ?_, ?_⟩
  · intro k hk
    rw [hres, lookupKey_foldl_deleteKey]
    simp [hk]
  · intro k hk
    rw [hres, lookupKey_foldl_deleteKey]
    simp [hk]
  · show (h.objs ++ [keys.foldl (fun acc k => deleteKey acc k) (h.objs.getD ref [])]).getD
      ref [] = _
    rw [List.getD_eq_getElem?_getD, List.getElem?_append_left href,
      List.getD_eq_getElem?_getD]

/-- C10 witness: omit on a concrete two-object-free heap holding one object
with keys a, b, c, removing b. -/
theorem omit_spec_witness :
    (∀ k ∈ ["b"],
      lookupKey ((«omit» (⟨[[("a", (1 : Nat)), ("b", 2), ("c", 3)]]⟩ : Heap Nat) 0 ["b"]).1.objs.getD
        ((«omit» (⟨[[("a", (1 : Nat)), ("b", 2), ("c", 3)]]⟩ : Heap Nat) 0 ["b"]).2) []) k = none) ∧
    (∀ k, k ∉ ["b"] →
      lookupKey ((«omit» (⟨[[("a", (1 : Nat)), ("b", 2), ("c", 3)]]⟩ : Heap Nat) 0 ["b"]).1.objs.getD
        ((«omit» (⟨[[("a", (1 : Nat)), ("b", 2), ("c", 3)]]⟩ : Heap Nat) 0 ["b"]).2) []) k =
        lookupKey ((⟨[[("a", (1 : Nat)), ("b", 2), ("c", 3)]]⟩ : Heap Nat).objs.getD 0 []) k) ∧
    («omit» (⟨[[("a", (1 : Nat)), ("b", 2), ("c", 3)]]⟩ : Heap Nat) 0 ["b"]).1.objs.getD 0 [] =
      (⟨[[("a", (1 : Nat)), ("b", 2), ("c", 3)]]⟩ : Heap Nat).objs.getD 0 [] :=
  omit_spec ⟨[[("a", 1), ("b", 2), ("c", 3)]]⟩ 0 ["b"] (by decide)

/-! ## C5 -/

/-- C5: the local-storage lifecycle of the token and user record. On mock
login success the token is stored under company_token and the user record as
JSON under company_user; on mock registration success likewise; on logout from
the dashboard both keys are deleted. -/
theorem auth_token_lifecycle
    (s s2 s3 : PageState) (email password name email2 password2 t n t2 n2 : String)
    (hlogin : (loginApi email password).2 = .ok t n)
    (hreg : (registerApi name email2 password2).2 = .ok t2 n2) :
    (getItem (Login.handleSubmit s email password).2.store STORAGE_KEYS.TOKEN = some t ∧
      getItem (Login.handleSubmit s email password).2.store STORAGE_KEYS.USER =
        some (stringifyUser n email)) ∧
    (getItem (Register.handleSubmit s2 name email2 password2).2.store STORAGE_KEYS.TOKEN =
        some t2 ∧
      getItem (Register.handleSubmit s2 name email2 password2).2.store STORAGE_KEYS.USER =
        some (stringifyUser name email2)) ∧
    (getItem (Dashboard.handleLogout s3).store STORAGE_KEYS.TOKEN = none ∧
      getItem (Dashboard.handleLogout s3).store STORAGE_KEYS.USER = none) := by
  refine ⟨?_, ?_, rfl, rfl⟩
  · by_cases hc : email = "user@company.com" ∧ password = "password"
    · simp only [loginApi, hc, and_self, if_true] at hlogin
      obtain ⟨ht, hn⟩ := AuthResult.ok.inj hlogin
      subst ht
      subst hn
      constructor
      · simp [Login.handleSubmit, loginApi, hc, getItem, setItem,
          STORAGE_KEYS.TOKEN, STORAGE_KEYS.USER]
      · simp [Login.handleSubmit, loginApi, hc, getItem, setItem,
          STORAGE_KEYS.TOKEN, STORAGE_KEYS.USER]
    · simp [loginApi, hc] at hlogin
  · by_cases hc : '@' ∈ email2.data ∧ 4 ≤ password2.length
    · have hreg2 : AuthResult.ok "demo-token-456" name = .ok t2 n2 := by
        simpa [registerApi, hc.1, hc.2] using hreg
      obtain ⟨ht, hn⟩ := AuthResult.ok.inj hreg2
      subst ht
      subst hn
      constructor
      · simp [Register.handleSubmit, registerApi, hc.1, hc.2, getItem, setItem,
          STORAGE_KEYS.TOKEN, STORAGE_KEYS.USER]
      · simp [Register.handleSubmit, registerApi, hc.1, hc.2, getItem, setItem,
          STORAGE_KEYS.TOKEN, STORAGE_KEYS.USER]
    · simp [registerApi, hc] at hreg

/-- C5 witness: a concrete login with the demo credentials, a concrete
registration, and a logout from an arbitrary concrete page state. -/
theorem auth_token_lifecycle_witness :
    (getItem (Login.handleSubmit ⟨emptyStore, "/login", ""⟩ "user@company.com"
        "password").2.store STORAGE_KEYS.TOKEN = some "demo-token-123" ∧
      getItem (Login.handleSubmit ⟨emptyStore, "/login", ""⟩ "user@company.com"
        "password").2.store STORAGE_KEYS.USER =
        some (stringifyUser "Demo User" "user@company.com")) ∧
    (getItem (Register.handleSubmit ⟨emptyStore, "/register", ""⟩ "New User"
        "new@company.com" "longpw").2.store STORAGE_KEYS.TOKEN = some "demo-token-456" ∧
      getItem (Register.handleSubmit ⟨emptyStore, "/register", ""⟩ "New User"
        "new@company.com" "longpw").2.store STORAGE_KEYS.USER =
        some (stringifyUser "New User" "new@company.com")) ∧
    (getItem (Dashboard.handleLogout ⟨setItem (setItem emptyStore STORAGE_KEYS.TOKEN
        "demo-token-123") STORAGE_KEYS.USER "u", "/dashboard", ""⟩).store
        STORAGE_KEYS.TOKEN = none ∧
      getItem (Dashboard.handleLogout ⟨setItem (setItem emptyStore STORAGE_KEYS.TOKEN
        "demo-token-123") STORAGE_KEYS.USER "u", "/dashboard", ""⟩).store
        STORAGE_KEYS.USER = none) :=
  auth_token_lifecycle ⟨emptyStore, "/login", ""⟩ ⟨emptyStore, "/register", ""⟩
    ⟨setItem (setItem emptyStore STORAGE_KEYS.TOKEN "demo-token-123")
      STORAGE_KEYS.USER "u", "/dashboard", ""⟩
    "user@company.com" "password" "New User" "new@company.com" "longpw"
    "demo-token-123" "Demo User" "demo-token-456" "New User" (by decide) (by decide)

/-! ## retryRequest lemmas -/

theorem retryGo_attempts_le {T : Type} (f : Nat → Except ApiError T) (b : Nat) :
    ∀ (fuel i : Nat) (last : Option ApiError),
      (retryGo f b last i fuel).attempts ≤ fuel := by
  intro fuel
  induction fuel with
  | zero => intro i last; simp [retryGo]
  | succ m ih =>
    intro i last
    simp only [retryGo]
    cases hf : f i with
    | ok v => simp
    | error e =>
      by_cases h4 : 400 ≤ e.status ∧ e.status < 500
      · simp [h4]
      · by_cases hm : m = 0
        · simp [h4, hm]
        · simp only [h4, hm, if_false]
          have := ih (i + 1) (some e)
          show (retryGo f b (some e) (i + 1) m).attempts + 1 ≤ m + 1
          omega

theorem retryGo_all_fail {T : Type} (f : Nat → Except ApiError T) (b : Nat) :
    ∀ (fuel i : Nat) (last : Option ApiError),
      0 < fuel →
      (∀ j, j < fuel → ∃ e, f (i + j) = .error e ∧ ¬(400 ≤ e.status ∧ e.status < 500)) →
      ∃ e, f (i + fuel - 1) = .error e ∧
        (retryGo f b last i fuel).result = .error (some e) := by
  intro fuel
  induction fuel with
  | zero => intro i last h0; omega
  | succ m ih =>
    intro i last _ hall
    obtain ⟨e0, he0, hno⟩ := hall 0 (Nat.succ_pos m)
    rw [Nat.add_zero] at he0
    by_cases hm : m = 0
    · subst hm
      refine ⟨e0, by simpa using he0, ?_⟩
      simp [retryGo, he0, hno]
    · have hrec := ih (i + 1) (some e0) (Nat.pos_of_ne_zero hm) ?_
      · obtain ⟨e, he, hres⟩ := hrec
        refine ⟨e, ?_, ?_⟩
        · have : i + 1 + m - 1 = i + (m + 1) - 1 := by omega
          rw [← this]
          exact he
        · simp only [retryGo, he0, hno, if_false, hm]
          exact hres
      · intro j hj
        obtain ⟨e, he, hn⟩ := hall (j + 1) (by omega)
        refine ⟨e, ?_, hn⟩
        have : i + (j + 1) = i + 1 + j := by omega
        rw [← this]
        exact he

theorem retryGo_4xx_stops {T : Type} (f : Nat → Except ApiError T) (b : Nat) :
    ∀ (fuel i k : Nat) (last : Option ApiError),
      k < fuel →
      (∀ j, j < k → ∃ e, f (i + j) = .error e ∧ (500 ≤ e.status ∨ e.status = 0)) →
      ∀ e, f (i + k) = .error e → 400 ≤ e.status → e.status < 500 →
        (retryGo f b last i fuel).result = .error (some e) ∧
        (retryGo f b last i fuel).attempts = k + 1 := by
  intro fuel
  induction fuel with
  | zero => intro i k last hk; omega
  | succ m ih =>
    intro i k last hk hprior e he h4a h4b
    cases k with
    | zero =>
      rw [Nat.add_zero] at he
      simp [retryGo, he, h4a, h4b]
    | succ j =>
      obtain ⟨e0, he0, hretri⟩ := hprior 0 (Nat.succ_pos j)
      rw [Nat.add_zero] at he0
      have hno : ¬(400 ≤ e0.status ∧ e0.status < 500) := by omega
      have hm : ¬ m = 0 := by omega
      have hrec := ih (i + 1) j (some e0) (by omega) ?_ e ?_ h4a h4b
      · simp only [retryGo, he0, hno, if_false, hm]
        refine ⟨hrec.1, ?_⟩
        show (retryGo f b (some e0) (i + 1) m).attempts + 1 = j + 1 + 1
        rw [hrec.2]
      · intro j2 hj2
        obtain ⟨e2, he2, hn2⟩ := hprior (j2 + 1) (by omega)
        refine ⟨e2, ?_, hn2⟩
        have : i + (j2 + 1) = i + 1 + j2 := by omega
        rw [← this]
        exact he2
      · have : i + (j + 1) = i + 1 + j := by omega
        rw [← this]
        exact he

theorem retryGo_delay_at {T : Type} (f : Nat → Except ApiError T) (b : Nat) :
    ∀ (fuel i k : Nat) (last : Option ApiError),
      k + 1 < fuel →
      (∀ j, j ≤ k → ∃ e, f (i + j) = .error e ∧ (500 ≤ e.status ∨ e.status = 0)) →
      (retryGo f b last i fuel).delays.get? k = some (b * 2 ^ (i + k)) := by
  intro fuel
  induction fuel with
  | zero => intro i k last hk; omega
  | succ m ih =>
    intro i k last hk hall
    obtain ⟨e0, he0, hretri⟩ := hall 0 (Nat.zero_le k)
    rw [Nat.add_zero] at he0
    have hno : ¬(400 ≤ e0.status ∧ e0.status < 500) := by omega
    have hm : ¬ m = 0 := by omega
    simp only [retryGo, he0, hno, if_false, hm]
    cases k with
    | zero =>
      show (b * 2 ^ i :: (retryGo f b (some e0) (i + 1) m).delays).get? 0 =
        some (b * 2 ^ (i + 0))
      simp
    | succ j =>
      have hrec := ih (i + 1) j (some e0) (by omega) ?_
      · show (b * 2 ^ i :: (retryGo f b (some e0) (i + 1) m).delays).get? (j + 1) =
          some (b * 2 ^ (i + (j + 1)))
        simp only [List.get?_cons_succ]
        rw [hrec]
        have : i + 1 + j = i + (j + 1) := by omega
        rw [this]
      · intro j2 hj2
        obtain ⟨e2, he2, hn2⟩ := hall (j2 + 1) (by omega)
        refine ⟨e2, ?_, hn2⟩
        have : i + (j2 + 1) = i + 1 + j2 := by omega
        rw [← this]
        exact he2

/-! ## C2 and C3 -/

/-- C2: once an attempt fails with a 4xx ApiError, retryRequest rethrows that
error at once with no further attempts; and when attempt i (counting from 0)
fails with a 5xx ApiError or a network failure (status 0) and a further
attempt remains, the wait recorded after attempt i is baseDelay * 2 ^ i, so
the delay doubles on each successive retry. Earlier attempts are assumed to
have failed retriably, so that attempt i is reached. -/
theorem retryRequest_classification_and_backoff {T : Type}
    (f : Nat → Except ApiError T) (maxRetries baseDelay i : Nat) (e : ApiError)
    (hprior : ∀ j, j < i → ∃ ej, f j = .error ej ∧ (500 ≤ ej.status ∨ ej.status = 0))
    (hi : f i = .error e) :
    (400 ≤ e.status → e.status < 500 → i < maxRetries →
      (retryRequest f maxRetries baseDelay).result = .error (some e) ∧
      (retryRequest f maxRetries baseDelay).attempts = i + 1) ∧
    ((500 ≤ e.status ∨ e.status = 0) → i + 1 < maxRetries →
      (retryRequest f maxRetries baseDelay).delays.get? i = some (baseDelay * 2 ^ i)) := by
  constructor
  · intro h4a h4b hlt
    have h := retryGo_4xx_stops f baseDelay maxRetries 0 i none hlt ?_ e ?_ h4a h4b
    · exact h
    · intro j hj
      obtain ⟨ej, hej, hs⟩ := hprior j hj
      exact ⟨ej, by rw [Nat.zero_add]; exact hej, hs⟩
    · rw [Nat.zero_add]
      exact hi
  · intro hretri hlt
    have h := retryGo_delay_at f baseDelay maxRetries 0 i none hlt ?_
    · rw [Nat.zero_add] at h
      exact h
    · intro j hj
      by_cases hji : j < i
      · obtain ⟨ej, hej, hs⟩ := hprior j hji
        exact ⟨ej, by rw [Nat.zero_add]; exact hej, hs⟩
      · have hje : j = i := by omega
        subst hje
        exact ⟨e, by rw [Nat.zero_add]; exact hi, hretri⟩

/-- C2 witness: with attempt 0 failing with status 500 and attempt 1 with
status 404 (maxRetries 3, baseDelay 10), the 404 is rethrown after exactly two
attempts; and with every attempt failing with status 500, the first recorded
delay is 10 * 2 ^ 0. -/
theorem retryRequest_classification_and_backoff_witness :
    ((retryRequest (fun j => if j = 0 then Except.error (mkApiError "boom" 500 none)
        else Except.error (mkApiError "missing" 404 none) : Nat → Except ApiError Nat)
        3 10).result = .error (some (mkApiError "missing" 404 none)) ∧
      (retryRequest (fun j => if j = 0 then Except.error (mkApiError "boom" 500 none)
        else Except.error (mkApiError "missing" 404 none) : Nat → Except ApiError Nat)
        3 10).attempts = 2) ∧
    (retryRequest (fun _ => Except.error (mkApiError "boom" 500 none) :
        Nat → Except ApiError Nat) 3 10).delays.get? 0 = some 10 := by
  refine ⟨?_, ?_⟩
  · have h := retryRequest_classification_and_backoff
      (fun j => if j = 0 then Except.error (mkApiError "boom" 500 none)
        else Except.error (mkApiError "missing" 404 none) : Nat → Except ApiError Nat)
      3 10 1 (mkApiError "missing" 404 none) ?_ rfl
    · exact h.1 (by decide) (by decide) (by decide)
    · intro j hj
      have hj0 : j = 0 := by omega
      subst hj0
      exact ⟨mkApiError "boom" 500 none, rfl, Or.inl (by decide)⟩
  · have h := retryRequest_classification_and_backoff
      (fun _ => Except.error (mkApiError "boom" 500 none) : Nat → Except ApiError Nat)
      3 10 0 (mkApiError "boom" 500 none) (by intro j hj; omega) rfl
    exact h.2 (Or.inl (by decide)) (by decide)

/-- C3: retryRequest invokes the request function at most maxRetries times,
and when every attempt fails and none fails with a 4xx ApiError, it rethrows
the error produced by the last attempt. -/
theorem retryRequest_bound_and_last_error {T : Type}
    (f : Nat → Except ApiError T) (maxRetries baseDelay : Nat) (e : Nat → ApiError)
    (hmax : 1 ≤ maxRetries)
    (hall : ∀ j, j < maxRetries → f j = .error (e j) ∧
      ¬(400 ≤ (e j).status ∧ (e j).status < 500)) :
    (retryRequest f maxRetries baseDelay).attempts ≤ maxRetries ∧
    (retryRequest f maxRetries baseDelay).result = .error (some (e (maxRetries - 1))) := by
  refine ⟨retryGo_attempts_le f baseDelay maxRetries 0 none, ?_⟩
  have h := retryGo_all_fail f baseDelay maxRetries 0 none (by omega) ?_
  · obtain ⟨e', he', hres⟩ := h
    rw [Nat.zero_add] at he'
    have hlast := (hall (maxRetries - 1) (by omega)).1
    rw [hlast] at he'
    have he'' : e (maxRetries - 1) = e' := by
      injection he'
    rw [he'']
    exact hres
  · intro j hj
    obtain ⟨h1, h2⟩ := hall j hj
    exact ⟨e j, by rw [Nat.zero_add]; exact h1, h2⟩

/-- C3 witness: with both of two attempts failing with status 500 (maxRetries
2), retryRequest uses at most 2 attempts and rethrows the last error. -/
theorem retryRequest_bound_and_last_error_witness :
    (retryRequest (fun _ => Except.error (mkApiError "boom" 500 none) :
        Nat → Except ApiError Nat) 2 10).attempts ≤ 2 ∧
    (retryRequest (fun _ => Except.error (mkApiError "boom" 500 none) :
        Nat → Except ApiError Nat) 2 10).result =
      .error (some (mkApiError "boom" 500 none)) := by
  have h := retryRequest_bound_and_last_error
    (fun _ => Except.error (mkApiError "boom" 500 none) : Nat → Except ApiError Nat)
    2 10 (fun _ => mkApiError "boom" 500 none) (by omega)
    (by
      intro j hj
      refine ⟨rfl, ?_⟩
      show ¬(400 ≤ (mkApiError "boom" 500 none).status ∧
        (mkApiError "boom" 500 none).status < 500)
      decide)
  exact h

/-! ## C8 -/

theorem chunkGo_of_ge {α : Type} (array : List α) (size fuel i : Nat)
    (h : ¬ i < array.length) : chunkGo array size i fuel = [] := by
  cases fuel <;> simp [chunkGo, h]

theorem chunkGo_flatten {α : Type} (array : List α) (size : Nat) (hs : 0 < size) :
    ∀ (fuel i : Nat), array.length - i ≤ fuel →
      (chunkGo array size i fuel).flatten = array.drop i := by
  intro fuel
  induction fuel with
  | zero =>
    intro i h
    simp [chunkGo, List.drop_eq_nil_of_le (show array.length ≤ i by omega)]
  | succ m ih =>
    intro i h
    by_cases hi : i < array.length
    · simp only [chunkGo, if_pos hi, List.flatten_cons]
      rw [ih (i + size) (by omega), ← List.drop_drop]
      exact List.take_append_drop size (array.drop i)
    · simp [chunkGo, hi, List.drop_eq_nil_of_le (show array.length ≤ i by omega)]

theorem chunkGo_dropLast_sizes {α : Type} (array : List α) (size : Nat) (hs : 0 < size) :
    ∀ (fuel i : Nat), array.length - i ≤ fuel →
      ∀ c ∈ (chunkGo array size i fuel).dropLast, c.length = size := by
  intro fuel
  induction fuel with
  | zero => intro i h c hc; simp [chunkGo] at hc
  | succ m ih =>
    intro i h c hc
    by_cases hi : i < array.length
    · simp only [chunkGo, if_pos hi] at hc
      cases hrest : chunkGo array size (i + size) m with
      | nil => rw [hrest] at hc; simp at hc
      | cons r rs =>
        rw [hrest, List.dropLast_cons₂] at hc
        have hlt : i + size < array.length := by
          by_contra hge
          rw [chunkGo_of_ge array size m (i + size) hge] at hrest
          exact List.noConfusion hrest
        rcases List.mem_cons.mp hc with hc1 | hc2
        · subst hc1
          rw [List.length_take, List.length_drop]
          omega
        · exact ih (i + size) (by omega) c (by rw [hrest]; exact hc2)
    · rw [chunkGo_of_ge array size (m + 1) i hi] at hc
      simp at hc

theorem chunkGo_getLast {α : Type} (array : List α) (size : Nat) (hs : 0 < size) :
    ∀ (fuel i : Nat), array.length - i ≤ fuel → i < array.length →
      ∃ c, (chunkGo array size i fuel).getLast? = some c ∧
        1 ≤ c.length ∧ c.length ≤ size := by
  intro fuel
  induction fuel with
  | zero => intro i h hi; omega
  | succ m ih =>
    intro i h hi
    cases hrest : chunkGo array size (i + size) m with
    | nil =>
      refine ⟨(array.drop i).take size, ?_, ?_, ?_⟩
      · simp only [chunkGo, if_pos hi, hrest]
        simp
      · rw [List.length_take, List.length_drop]
        omega
      · rw [List.length_take, List.length_drop]
        omega
    | cons r rs =>
      have hlt : i + size < array.length := by
        by_contra hge
        rw [chunkGo_of_ge array size m (i + size) hge] at hrest
        exact List.noConfusion hrest
      obtain ⟨c, hc, h1, h2⟩ := ih (i + size) (by omega) hlt
      refine ⟨c, ?_, h1, h2⟩
      simp only [chunkGo, if_pos hi, hrest]
      rw [List.getLast?_cons_cons]
      rw [hrest] at hc
      exact hc

/-- C8: for a positive chunk size, concatenating the sub-arrays returned by
chunk yields exactly the input array; every returned sub-array except
possibly the last has length exactly size; and for a non-empty input the last
sub-array has length between 1 and size. -/
theorem chunk_flatten_and_sizes {α : Type} (a : List α) (s : Nat) (hs : 0 < s) :
    (chunk a s).flatten = a ∧
    (∀ c ∈ (chunk a s).dropLast, c.length = s) ∧
    (a ≠ [] → ∃ c, (chunk a s).getLast? = some c ∧ 1 ≤ c.length ∧ c.length ≤ s) := by
  refine ⟨?_, ?_, ?_⟩
  · have h := chunkGo_flatten a s hs a.length 0 (by omega)
    rw [List.drop_zero] at h
    exact h
  · intro c hc
    exact chunkGo_dropLast_sizes a s hs a.length 0 (by omega) c hc
  · intro ha
    have hl : 0 < a.length := List.length_pos.mpr ha
    exact chunkGo_getLast a s hs a.length 0 (by omega) hl

/-- C8 witness: chunking a five-element array with size 2. -/
theorem chunk_flatten_and_sizes_witness :
    (chunk ([1, 2, 3, 4, 5] : List Nat) 2).flatten = [1, 2, 3, 4, 5] ∧
    (∀ c ∈ (chunk ([1, 2, 3, 4, 5] : List Nat) 2).dropLast, c.length = 2) ∧
    (([1, 2, 3, 4, 5] : List Nat) ≠ [] →
      ∃ c, (chunk ([1, 2, 3, 4, 5] : List Nat) 2).getLast? = some c ∧
        1 ≤ c.length ∧ c.length ≤ 2) :=
  chunk_flatten_and_sizes [1, 2, 3, 4, 5] 2 (by decide)

/-! ## C1 -/

/-- C1 counterexample: a call whose HTTP response arrives with status 401 but
whose JSON body fails to parse. The parse rejection is thrown before the
status dispatch, so the wrapper neither clears the stored credentials nor
redirects, and the call rejects with a generic ApiError of status 0, not 401:
the stored token survives and the location is untouched. -/
theorem request_401_counterexample :
    (request ⟨setItem emptyStore STORAGE_KEYS.TOKEN "tok", "/dashboard"⟩ true
      (.success 401 (.error ⟨"SyntaxError", "Unexpected end of JSON input"⟩))).1.location
      = "/dashboard" ∧
    getItem (request ⟨setItem emptyStore STORAGE_KEYS.TOKEN "tok", "/dashboard"⟩ true
      (.success 401 (.error ⟨"SyntaxError", "Unexpected end of JSON input"⟩))).1.store
      STORAGE_KEYS.TOKEN = some "tok" ∧
    resultStatus (request ⟨setItem emptyStore STORAGE_KEYS.TOKEN "tok", "/dashboard"⟩ true
      (.success 401 (.error ⟨"SyntaxError", "Unexpected end of JSON input"⟩))).2 = some 0 := by
  refine ⟨rfl, by decide, by decide⟩

/-- C1 (amended): for every call whose HTTP response arrives with status 401
and whose body parses without throwing, the wrapper removes the company_token,
company_user and company_refresh_token keys, redirects to /login, and the call
rejects with an ApiError whose status is 401. (The hypothesis says the call
got past the header-building auth check, as any call that performed a fetch
did.) -/
theorem request_401_clears_and_redirects
    (b : BrowserState) (requiresAuth : Bool) (data : RespData)
    (hauth : requiresAuth = true → jsTruthy (getAuthToken b.store) = true) :
    getItem (request b requiresAuth (.success 401 (.ok data))).1.store
      STORAGE_KEYS.TOKEN = none ∧
    getItem (request b requiresAuth (.success 401 (.ok data))).1.store
      STORAGE_KEYS.USER = none ∧
    getItem (request b requiresAuth (.success 401 (.ok data))).1.store
      STORAGE_KEYS.REFRESH_TOKEN = none ∧
    (request b requiresAuth (.success 401 (.ok data))).1.location = "/login" ∧
    ∃ a : ApiError, (request b requiresAuth (.success 401 (.ok data))).2 =
      .error (.api a) ∧ a.status = 401 := by
  have hbh : buildHeadersAuthCheck requiresAuth b.store = .ok () := by
    cases requiresAuth
    · simp [buildHeadersAuthCheck]
    · simp [buildHeadersAuthCheck, hauth rfl]
  have hreq : request b requiresAuth (.success 401 (.ok data)) =
      (redirectToLogin b,
        .error (.api (mkApiError ERROR_MESSAGES.UNAUTHORIZED HTTP_STATUS.UNAUTHORIZED
          (some (.resp data))))) := by
    simp [request, hbh, requestTryBody, fetchWithTimeout, catchHandler,
      HTTP_STATUS.UNAUTHORIZED]
  rw [hreq]
  obtain ⟨h1, h2, h3⟩ := clearAuthData_spec b.store
  exact ⟨h1, h2, h3, rfl,
    mkApiError ERROR_MESSAGES.UNAUTHORIZED HTTP_STATUS.UNAUTHORIZED (some (.resp data)),
    rfl, rfl⟩

/-- C1 witness: a concrete 401 response with a parsed empty body, against a
store holding a token. -/
theorem request_401_clears_and_redirects_witness :
    getItem (request ⟨setItem emptyStore STORAGE_KEYS.TOKEN "tok", "/home"⟩ true
      (.success 401 (.ok ⟨none, none, none⟩))).1.store STORAGE_KEYS.TOKEN = none ∧
    getItem (request ⟨setItem emptyStore STORAGE_KEYS.TOKEN "tok", "/home"⟩ true
      (.success 401 (.ok ⟨none, none, none⟩))).1.store STORAGE_KEYS.USER = none ∧
    getItem (request ⟨setItem emptyStore STORAGE_KEYS.TOKEN "tok", "/home"⟩ true
      (.success 401 (.ok ⟨none, none, none⟩))).1.store STORAGE_KEYS.REFRESH_TOKEN = none ∧
    (request ⟨setItem emptyStore STORAGE_KEYS.TOKEN "tok", "/home"⟩ true
      (.success 401 (.ok ⟨none, none, none⟩))).1.location = "/login" ∧
    ∃ a : ApiError, (request ⟨setItem emptyStore STORAGE_KEYS.TOKEN "tok", "/home"⟩ true
      (.success 401 (.ok ⟨none, none, none⟩))).2 = .error (.api a) ∧ a.status = 401 :=
  request_401_clears_and_redirects ⟨setItem emptyStore STORAGE_KEYS.TOKEN "tok", "/home"⟩
    true ⟨none, none, none⟩ (fun _ => by decide)

/-! ## C4 -/

/-- C4: every failure of request rejects with the single tagged error type
ApiError (which carries a numeric status, a message and optional field-level
validation errors); no raw JavaScript error escapes request, because the
catch block wraps every non-ApiError rejection. -/
theorem request_rejects_only_ApiError
    (b : BrowserState) (requiresAuth : Bool) (o : FetchOutcome) (e : RawError)
    (h : (request b requiresAuth o).2 = .error e) :
    ∃ a : ApiError, e = .api a := by
  unfold request at h
  cases hbh : buildHeadersAuthCheck requiresAuth b.store with
  | error a =>
    rw [hbh] at h
    simp at h
    exact ⟨a, h.symm⟩
  | ok u =>
    rw [hbh] at h
    rcases hbody : requestTryBody b o with ⟨b2, r⟩
    rw [hbody] at h
    cases r with
    | ok resp => simp at h
    | error raw =>
      simp at h
      exact ⟨catchHandler raw, h.symm⟩

/-- C4 witness: a network failure ("Failed to fetch") surfaces as the network
ApiError with status 0. -/
theorem request_rejects_only_ApiError_witness :
    ∃ a : ApiError,
      RawError.api (mkApiError ERROR_MESSAGES.NETWORK_ERROR 0
        (some (.jsErr ⟨"TypeError", "Failed to fetch"⟩))) = .api a :=
  request_rejects_only_ApiError ⟨emptyStore, "/"⟩ false
    (.jsError ⟨"TypeError", "Failed to fetch"⟩) _ rfl
